import Mathlib

/-!
Verification development for the `pecapiku` file-persisted memoization
library.  The definitions below are a shallow embedding of the Python
sources (`pecapiku/hash.py`, `pecapiku/no_cache.py`, `pecapiku/cache_access.py`,
`pecapiku/base_cache.py`, `pecapiku/cache_dict.py`,
`pecapiku/single_value_cache.py`); theorems about them follow the
definitions.
-/

set_option autoImplicit false

namespace Pecapiku

/-! ### Python values seen by `hash.py`

`get_hash` feeds arbitrary Python values to `json.dumps`.  `JVal` models the
value shapes relevant to the hashing scheme: JSON-native values (`null`,
booleans, integers, strings, lists/tuples, dictionaries with string keys),
Python `set` objects (not JSON serializable, handled by the `default`
callback), and arbitrary instances carrying a `__dict__` attribute mapping.
-/

mutual

inductive JVal : Type where
  | jnull : JVal
  | jbool (b : Bool) : JVal
  | jint (n : Int) : JVal
  | jstr (s : String) : JVal
  | jarr (elems : JValList) : JVal
  | jobj (fields : JFieldList) : JVal
  | jset (elems : JValList) : JVal
  | jinst (classPath : String) (attrs : JFieldList) : JVal

/-- A sequence of values (list/tuple elements, set elements). -/
inductive JValList : Type where
  | nil : JValList
  | cons (v : JVal) (rest : JValList) : JValList

/-- The items of a dictionary (string keys, insertion order). -/
inductive JFieldList : Type where
  | nil : JFieldList
  | cons (key : String) (v : JVal) (rest : JFieldList) : JFieldList

end

/-- Build a value sequence from a Lean list. -/
def jlist : List JVal → JValList
  | [] => .nil
  | v :: rest => .cons v (jlist rest)

/-- Build a dictionary item sequence from a Lean list. -/
def jfields : List (String × JVal) → JFieldList
  | [] => .nil
  | (k, v) :: rest => .cons k v (jfields rest)

/-- One hexadecimal digit, lower case (as produced by Python's `json`). -/
def hexDigit (n : Nat) : Char :=
  if n < 10 then Char.ofNat (48 + n) else Char.ofNat (87 + n)

/-- Four-digit hexadecimal rendering used in `\uXXXX` escapes. -/
def hex4 (n : Nat) : String :=
  String.mk [hexDigit (n / 4096 % 16), hexDigit (n / 256 % 16),
             hexDigit (n / 16 % 16), hexDigit (n % 16)]

/-- JSON string escaping of a single character (`ensure_ascii=False`:
non-ASCII characters are kept as-is). -/
def escapeChar (c : Char) : String :=
  if c = '\\' then "\\\\"
  else if c = '"' then "\\\""
  else if c = '\n' then "\\n"
  else if c = '\t' then "\\t"
  else if c = '\r' then "\\r"
  else if c.toNat = 8 then "\\b"
  else if c.toNat = 12 then "\\f"
  else if c.toNat < 32 then "\\u" ++ hex4 c.toNat
  else String.singleton c

/-- JSON rendering of a string literal: surrounding quotes plus escaping. -/
def quoteStr (s : String) : String :=
  "\"" ++ String.join (s.data.map escapeChar) ++ "\""

/-- Lexicographic comparison of character sequences by Unicode code point —
Python's `<` on strings, which `sorted`/`sort_keys=True` uses. -/
def strLtList : List Char → List Char → Bool
  | [], [] => false
  | [], _ :: _ => true
  | _ :: _, [] => false
  | a :: as, b :: bs =>
      if a.toNat < b.toNat then true
      else if b.toNat < a.toNat then false
      else strLtList as bs

/-- Python string comparison. -/
def strLt (a b : String) : Bool := strLtList a.data b.data

/-- Insert an item into a key-sorted list, before the first strictly
greater key. -/
def insertSorted (kv : String × String) :
    List (String × String) → List (String × String)
  | [] => [kv]
  | x :: xs => if strLt kv.1 x.1 then kv :: x :: xs else x :: insertSorted kv xs

/-- `json.dumps(..., sort_keys=True)` sorts dictionary items by key before
serialization.  Keys are strings, compared lexicographically; dictionary
keys are unique, so any sort by key produces the same item order. -/
def sortFields : List (String × String) → List (String × String)
  | [] => []
  | x :: xs => insertSorted x (sortFields xs)

/-- Comma-separated join, as produced by `separators=(',', ':')`. -/
def joinComma (parts : List String) : String :=
  String.intercalate "," parts

/-- Given already-rendered `key ↦ rendered value` items, produce the JSON
object text with keys sorted (`sort_keys=True`) and `(',', ':')` separators.
Rendering a value does not depend on its position, so sorting rendered items
by key agrees with sorting the dictionary by key before rendering. -/
def renderObj (fields : List (String × String)) : String :=
  "\x7b" ++ joinComma ((sortFields fields).map (fun kv => quoteStr kv.1 ++ ":" ++ kv.2)) ++ "\x7d"

/-- The key Python's `_json_default` adds in front of an object's attribute
dictionary: `dict(__class_path__=class_path, **vars_dict)`. -/
def classPathKey : String := "__class_path__"

mutual

/-- `_json_dumps` of `hash.py`: `json.dumps` with `default=_json_default`,
`ensure_ascii=False`, `sort_keys=True`, `indent=None`,
`separators=(',', ':')`.

For a value `json` cannot represent, `_json_default` is called; it builds
`dict(__class_path__=class_path, **vars_dict)` where `vars_dict` is
`vars(obj)` when the object has a `__dict__` and `\x7b\x7d` otherwise, and
returns `_json_dumps` of that dictionary — a *string*, which the outer
serializer then embeds as a JSON string literal.  A Python `set` has no
`__dict__`, so every set collapses to the record containing only its class
path, its elements discarded. -/
def jsonDumps : JVal → String
  | .jnull => "null"
  | .jbool b => cond b "true" "false"
  | .jint n => toString n
  | .jstr s => quoteStr s
  | .jarr elems => "[" ++ joinComma (dumpsList elems) ++ "]"
  | .jobj fields => renderObj (dumpsFields fields)
  | .jset _ => quoteStr (renderObj [(classPathKey, quoteStr "builtins.set")])
  | .jinst classPath attrs =>
      quoteStr (renderObj ((classPathKey, quoteStr classPath) :: dumpsFields attrs))

/-- Serialize list elements in order. -/
def dumpsList : JValList → List String
  | .nil => []
  | .cons v rest => jsonDumps v :: dumpsList rest

/-- Serialize dictionary values, keeping each value next to its key. -/
def dumpsFields : JFieldList → List (String × String)
  | .nil => []
  | .cons k v rest => (k, jsonDumps v) :: dumpsFields rest

end

/-- `get_hash` of `hash.py`: `_json_dumps(tuple(objects))` — the fingerprint
of an ordered sequence of values (a tuple serializes as a JSON array). -/
def getHash (objects : List JVal) : String :=
  jsonDumps (.jarr (jlist objects))

/-! ### The Absent marker and cached values

`no_cache.py` defines the sentinel class `NoCache` (falsy, equal only to
itself).  A cached slot holds either a real value or the sentinel; `PVal`
models that distinction, mirroring Python's `isinstance(val, NoCache)`
checks. -/

inductive PVal (V : Type) : Type where
  | val (v : V) : PVal V
  | noCache : PVal V
  deriving DecidableEq, Repr

/-- `isinstance(val, NoCache)`. -/
def PVal.isNoCache {V : Type} : PVal V → Bool
  | .noCache => true
  | .val _ => false

/-! ### Python exceptions raised by the library -/

inductive PyErr : Type where
  /-- The `ValueError` of `BaseCache._read_execute_write`: a lookup missed
  (or was not attempted) and the access policy does not permit execution. -/
  | cacheMissNotPermitted : PyErr
  /-- The `ValueError` of `initialize_cache_dict`: the cache file holds a
  value that is not a `MyDefaultDict`. -/
  | wrongShape : PyErr
  /-- The `TypeError` Python raises when instantiating a class that still
  has unimplemented abstract methods. -/
  | abstractClassError : PyErr
  /-- The `TypeError` raised by subscripting a value with no `__getitem__`
  (e.g. `NoCache()[key]`). -/
  | notSubscriptable : PyErr
  /-- The `NotImplementedError` raised by `BaseCache`'s abstract method
  bodies. -/
  | notImplementedError : PyErr
  deriving DecidableEq, Repr

/-! ### Access policies

`cache_access.py` types them as `Literal['r', 're', 'ew', 'rew', 'e']`; the
code interprets a policy string by the exact comparison `access == 'e'` and
by character membership `'r' in access`, `'e' in access`, `'w' in access`.
-/

/-- `c in access` for a one-character needle: character membership. -/
def hasChar (access : String) (c : Char) : Bool :=
  access.data.contains c

/-! ### File paths and the file system

`config.py` keeps a process-wide cache directory; `_resolve_filepath` of
`cache_access.py` resolves relative paths against it and keeps absolute
paths as-is.  A path that is still relative when handed to `open` resolves
against the current working directory instead.  The file system is an
association list from absolute path strings to pickled blobs. -/

inductive FPath : Type where
  | abs (s : String) : FPath
  | rel (s : String) : FPath
  deriving DecidableEq, Repr

/-- `_resolve_filepath`: a relative path is prefixed with the configured
cache directory (`config.get_cache_dir() / file_path`); an absolute path is
returned unchanged. -/
def resolveFilepath (cacheDir : String) : FPath → FPath
  | .abs s => .abs s
  | .rel s => .abs (cacheDir ++ "/" ++ s)

/-- The absolute path a raw `open` call actually touches: an absolute path
names itself; a relative path resolves against the current working
directory. -/
def openTarget (cwd : String) : FPath → String
  | .abs s => s
  | .rel s => cwd ++ "/" ++ s

/-- A pickled blob on disk: either a `MyDefaultDict` mapping (the shape the
keyed store writes) or some other pickled value. -/
inductive Blob (K V : Type) : Type where
  | mdd (entries : List (K × PVal V)) : Blob K V
  | raw (v : V) : Blob K V
  deriving DecidableEq, Repr

/-- The file system: absolute path ↦ pickled blob (`none` = no file). -/
abbrev FS (K V : Type) : Type := String → Option (Blob K V)

/-- Read the blob stored at a path, if the file exists. -/
def fsRead {K V : Type} (fs : FS K V) (p : String) : Option (Blob K V) :=
  fs p

/-- Overwrite (or create) the file at a path (`update_cache` ensures the
parent directory exists and overwrites the whole file). -/
def fsWrite {K V : Type} (fs : FS K V) (p : String) (b : Blob K V) : FS K V :=
  fun q => if q = p then some b else fs q

/-- The empty file system. -/
def fsEmpty {K V : Type} : FS K V := fun _ => none

/-- A file system holding exactly one file. -/
def fsSingle {K V : Type} (p : String) (b : Blob K V) : FS K V :=
  fun q => if q = p then some b else none

/-! ### In-memory `MyDefaultDict`

`cache_dict.py` wraps `defaultdict(NoCache)`.  Mappings are association
lists preserving Python's insertion order: `d[k] = v` replaces in place or
appends, and `d[k]` / `d.get(k)` on a missing key *inserts* a fresh
`NoCache()` entry and returns it (the `defaultdict.__missing__` behavior,
which `MyDefaultDict.get` routes through `__getitem__`). -/

/-- Plain lookup (`k in d` / dict lookup without default-factory effects). -/
def dictLookup {K V : Type} [DecidableEq K] (d : List (K × PVal V)) (k : K) :
    Option (PVal V) :=
  (d.find? (fun e => decide (e.1 = k))).map (·.2)

/-- `d[k] = v`: replace in place if the key exists, else append. -/
def dictInsert {K V : Type} [DecidableEq K] (d : List (K × PVal V)) (k : K)
    (v : PVal V) : List (K × PVal V) :=
  if (d.find? (fun e => decide (e.1 = k))).isSome then
    d.map (fun e => if e.1 = k then (k, v) else e)
  else
    d ++ [(k, v)]

/-- `MyDefaultDict.__getitem__` (also `MyDefaultDict.get`): on a hit return
the stored value and leave the mapping alone; on a miss insert
`(k, NoCache())` and return the fresh marker. -/
def mddGetItem {K V : Type} [DecidableEq K] (d : List (K × PVal V)) (k : K) :
    List (K × PVal V) × PVal V :=
  match dictLookup d k with
  | some v => (d, v)
  | none => (d ++ [(k, .noCache)], .noCache)

/-! ### The read-execute-write orchestrator

`BaseCache._read_execute_write`, abstracted over the concrete cache's
`_get_cache_val` / `_put_cache_val` primitives.  The key is the result of
`self._key_func(...)`, a pure function of the call, precomputed by the
caller of this definition.  `getC` threads the cache state and may raise
(`CacheDict._get_cache_val` re-validates the cache file); `putC` cannot.
The instrumentation fields record how many times the wrapped callable was
invoked (`calls`), how many lookups were attempted (`gets`), how many
`_put_cache_val` stores happened (`persists`), and whether the lookup hit
(`hit`, the code's `was_read`). -/

structure RewOut (σ V : Type) : Type where
  state : σ
  result : Except PyErr (PVal V)
  calls : Nat
  gets : Nat
  persists : Nat
  hit : Bool

def readExecuteWrite {σ K V : Type}
    (getC : σ → K → Except PyErr (σ × PVal V))
    (putC : σ → K → PVal V → σ)
    (access : String) (key : K) (func : Unit → PVal V) (s0 : σ) : RewOut σ V :=
  if access = "e" then
    -- fast bypass: `if access == 'e': return func(*func_args, **func_kwargs)`
    { state := s0, result := .ok (func ()), calls := 1, gets := 0, persists := 0,
      hit := false }
  else
    match (if hasChar access 'r' then getC s0 key else .ok (s0, .noCache)) with
    | .error e =>
        { state := s0, result := .error e, calls := 0,
          gets := if hasChar access 'r' then 1 else 0, persists := 0, hit := false }
    | .ok (s1, val) =>
        let gets := if hasChar access 'r' then 1 else 0
        let wasRead := !val.isNoCache
        if val.isNoCache && !hasChar access 'e' then
          { state := s1, result := .error .cacheMissNotPermitted, calls := 0,
            gets := gets, persists := 0, hit := false }
        else
          let step := if hasChar access 'e' && !wasRead then (func (), 1) else (val, 0)
          if hasChar access 'w' && !wasRead && !step.1.isNoCache then
            { state := putC s1 key step.1, result := .ok step.1, calls := step.2,
              gets := gets, persists := 1, hit := wasRead }
          else
            { state := s1, result := .ok step.1, calls := step.2,
              gets := gets, persists := 0, hit := wasRead }

/-! ### `CacheDict` (keyed cache store) -/

/-- `_initialize_cache` of `cache_access.py`: `NoCache()` when the file does
not exist (modelled as `none`), otherwise the unpickled blob. -/
def initializeCache {K V : Type} (fs : FS K V) (p : String) : Option (Blob K V) :=
  fsRead fs p

/-- `initialize_cache_dict` of `cache_dict.py`: a fresh empty
`MyDefaultDict(NoCache)` when the file does not exist, the stored mapping
when it holds a `MyDefaultDict`, and a `ValueError` when it holds anything
else. -/
def initializeCacheDict {K V : Type} (fs : FS K V) (p : String) :
    Except PyErr (List (K × PVal V)) :=
  match initializeCache fs p with
  | none => .ok []
  | some (.mdd d) => .ok d
  | some (.raw _) => .error .wrongShape

/-- `CacheDict._get_cache_val`: re-runs `initialize_cache_dict(self.file_path)`
(result discarded, but its validation error would propagate), then returns
`self.cache_dict[key]` — the defaultdict lookup that inserts a `NoCache()`
entry on a miss. -/
def cdGetC {K V : Type} [DecidableEq K] (fs : FS K V) (p : String) :
    List (K × PVal V) → K → Except PyErr (List (K × PVal V) × PVal V) :=
  fun d k =>
    match initializeCacheDict fs p with
    | .error e => .error e
    | .ok _ => .ok (mddGetItem d k)

/-- `CacheDict._put_cache_val`: `self.cache_dict[key] = value`. -/
def cdPutC {K V : Type} [DecidableEq K] :
    List (K × PVal V) → K → PVal V → List (K × PVal V) :=
  fun d k v => dictInsert d k v

/-- Observable outcome of one call to a decorated wrapper: resulting file
system, returned value or exception, number of invocations of the wrapped
callable, number of cache-file reads, number of cache-file writes, and
number of `_put_cache_val` stores into the in-memory mapping. -/
structure DecCallOut (K V : Type) : Type where
  fs : FS K V
  result : Except PyErr (PVal V)
  calls : Nat
  fileReads : Nat
  fileWrites : Nat
  dictPuts : Nat

/-- One call to a `CacheDict`-decorated function (`CacheDict._decorate`,
`decorated`): the decoration-time path resolution, then
`instance = cls(file_path, access)`, `with instance:` (`__enter__`, the
orchestrator body, `__exit__`), returning the body's value or re-raising
its exception after `__exit__` ran.  If `__enter__` itself raises, the body
and `__exit__` are skipped.  `key` is the value `_key_func` computes for
this call — a pure function of the callable and its arguments. -/
def cacheDictDecoratedCall {K V : Type} [DecidableEq K] (cacheDir cwd : String)
    (fs : FS K V) (filePath : FPath) (access : String) (key : K)
    (func : Unit → PVal V) : DecCallOut K V :=
  let rp := resolveFilepath cacheDir filePath
  if hasChar access 'r' then
    -- __enter__: self.file_path = _resolve_filepath(self.file_path);
    -- self.cache_dict = initialize_cache_dict(self.file_path)
    let ip := resolveFilepath cacheDir rp
    match initializeCacheDict fs (openTarget cwd ip) with
    | .error e => ⟨fs, .error e, 0, 1, 0, 0⟩
    | .ok d0 =>
        let body := readExecuteWrite (cdGetC fs (openTarget cwd ip)) cdPutC
          access key func d0
        if hasChar access 'w' then
          ⟨fsWrite fs (openTarget cwd ip) (.mdd body.state), body.result,
            body.calls, 1 + body.gets, 1, body.persists⟩
        else
          ⟨fs, body.result, body.calls, 1 + body.gets, 0, body.persists⟩
  else
    -- __enter__: self.cache_dict = MyDefaultDict(NoCache)
    let body := readExecuteWrite (cdGetC fs (openTarget cwd rp)) cdPutC
      access key func ([])
    if hasChar access 'w' then
      ⟨fsWrite fs (openTarget cwd rp) (.mdd body.state), body.result,
        body.calls, body.gets, 1, body.persists⟩
    else
      ⟨fs, body.result, body.calls, body.gets, 0, body.persists⟩

/-- `CacheDict.__enter__` for scoped-session use: under a reading policy the
instance's path is resolved in place and the mapping loaded from it;
otherwise the path is left as given and the mapping starts empty. -/
def sessionLoad {K V : Type} [DecidableEq K] (cacheDir cwd : String)
    (fs : FS K V) (p : FPath) (access : String) :
    Except PyErr (FPath × List (K × PVal V)) :=
  if hasChar access 'r' then
    let rp := resolveFilepath cacheDir p
    match initializeCacheDict fs (openTarget cwd rp) with
    | .error e => .error e
    | .ok d => .ok (rp, d)
  else
    .ok (p, [])

/-- Outcome of a scoped session: resulting file system, whether the body's
exception propagates, and the contents the caller's reference to the
mapping holds after exit (`__exit__` calls `self.cache_dict.clear()`). -/
structure SessionOut (K V : Type) : Type where
  fs : FS K V
  raised : Bool
  holderDict : List (K × PVal V)

/-- A scoped session `with CacheDict(p, access) as d: body`.  The body is
arbitrary caller code transforming the in-memory mapping; its second
component records whether it raised.  `__exit__` runs in both cases:
it flushes `self.cache_dict` to `self.file_path` whenever `'w'` is in the
access policy, then clears the mapping. -/
def cacheDictSession {K V : Type} [DecidableEq K] (cacheDir cwd : String)
    (fs : FS K V) (p : FPath) (access : String)
    (body : List (K × PVal V) → List (K × PVal V) × Bool) :
    Except PyErr (SessionOut K V) :=
  match sessionLoad cacheDir cwd fs p access with
  | .error e => .error e
  | .ok (ip, d0) =>
      let bres := body d0
      let fs2 := if hasChar access 'w' then
        fsWrite fs (openTarget cwd ip) (.mdd bres.1) else fs
      .ok ⟨fs2, bres.2, []⟩

/-- What `CacheDict.get` hands back when it does not raise. -/
inductive CDGetOut (K V : Type) : Type where
  /-- The `NoCache()` sentinel `_initialize_cache` returned for a missing
  file, passed through as the whole snapshot. -/
  | wholeMissing : CDGetOut K V
  /-- The whole stored mapping. -/
  | wholeDict (d : List (K × PVal V)) : CDGetOut K V
  /-- A whole stored value of some other shape. -/
  | wholeRaw (v : V) : CDGetOut K V
  /-- A single entry (possibly the fresh `NoCache()` marker a defaultdict
  lookup produces on a miss). -/
  | entry (v : PVal V) : CDGetOut K V

/-- `CacheDict.get`: resolve the path, unpickle whatever is there
(`_initialize_cache`, no shape validation), return it whole when `key` is
`None`, else subscript it.  Subscripting the `NoCache()` sentinel obtained
for a missing file — or any other non-mapping blob — raises a `TypeError`.
-/
def cacheDictGet {K V : Type} [DecidableEq K] (cacheDir cwd : String)
    (fs : FS K V) (p : FPath) (key : Option K) : Except PyErr (CDGetOut K V) :=
  let rp := resolveFilepath cacheDir p
  match initializeCache fs (openTarget cwd rp) with
  | none =>
      match key with
      | none => .ok .wholeMissing
      | some _ => .error .notSubscriptable
  | some (.mdd d) =>
      match key with
      | none => .ok (.wholeDict d)
      | some k => .ok (.entry (mddGetItem d k).2)
  | some (.raw v) =>
      match key with
      | none => .ok (.wholeRaw v)
      | some _ => .error .notSubscriptable

/-! ### `SingleValueCache`

`BaseCache` declares the abstract methods `_get_cache_val`, `_put_cache_val`,
`_key_func`, `_decorate`, `_get_default_file_path`.  `single_value_cache.py`
implements `_decorate` but spells the others `get_cache_val`,
`put_cache_val`, `key_func` — without the leading underscore — and never
defines `_get_default_file_path`, so the class keeps four unimplemented
abstract methods. -/

def baseCacheAbstractMethods : List String :=
  ["_get_cache_val", "_put_cache_val", "_key_func", "_decorate",
   "_get_default_file_path"]

def singleValueCacheMethods : List String :=
  ["__init__", "__call__", "get_cache_val", "put_cache_val", "key_func",
   "_decorate", "get", "decorate"]

/-- The abstract methods `SingleValueCache` leaves unimplemented. -/
def svcRemainingAbstract : List String :=
  baseCacheAbstractMethods.filter (fun m => !(singleValueCacheMethods.contains m))

/-- Python's abstract-class guard: instantiation succeeds only when no
abstract method remains unimplemented, and otherwise raises `TypeError`. -/
def pyInstantiate (remaining : List String) : Except PyErr Unit :=
  if remaining.isEmpty then .ok () else .error .abstractClassError

/-- One call to a `SingleValueCache`-decorated function
(`SingleValueCache._decorate`, `decorated`): the non-empty path was
resolved at decoration time; the call then runs
`instance = cls(file_path, access)` — which must instantiate the class —
followed by `instance._read_execute_write(...)`. -/
def svcDecoratedCall {K V : Type} (cacheDir : String) (fs : FS K V)
    (filePath : FPath) (access : String) (func : Unit → PVal V) :
    DecCallOut K V :=
  let _rp := resolveFilepath cacheDir filePath
  match pyInstantiate svcRemainingAbstract with
  | .error e => ⟨fs, .error e, 0, 0, 0, 0⟩
  | .ok _ =>
      -- Unreachable for the source as written.  Were instantiation to
      -- succeed, `_read_execute_write` would take the `access == 'e'` fast
      -- path or hit `BaseCache._key_func`, whose body raises
      -- NotImplementedError.
      if access = "e" then ⟨fs, .ok (func ()), 1, 0, 0, 0⟩
      else ⟨fs, .error .notImplementedError, 0, 0, 0, 0⟩

/-! ### General lemmas about the embedding -/

theorem resolveFilepath_idem (cacheDir : String) (p : FPath) :
    resolveFilepath cacheDir (resolveFilepath cacheDir p) = resolveFilepath cacheDir p := by
  cases p <;> rfl

theorem fsRead_fsWrite_self {K V : Type} (fs : FS K V) (p : String) (b : Blob K V) :
    fsRead (fsWrite fs p b) p = some b := by
  simp [fsRead, fsWrite]

theorem fsWrite_fsWrite_self {K V : Type} (fs : FS K V) (p : String) (b : Blob K V) :
    fsWrite (fsWrite fs p b) p b = fsWrite fs p b := by
  funext q
  by_cases h : q = p <;> simp [fsWrite, h]

section RewLemmas

variable {σ K V : Type}
variable (getC : σ → K → Except PyErr (σ × PVal V))
variable (putC : σ → K → PVal V → σ)
variable (access : String) (key : K) (func : Unit → PVal V) (s0 s1 : σ)

/-- The `access == 'e'` fast path: compute, never touch the cache. -/
theorem rew_fast_path :
    readExecuteWrite getC putC "e" key func s0 =
      ⟨s0, .ok (func ()), 1, 0, 0, false⟩ := rfl

/-- Reading policy, lookup hit: return the stored value, no compute, no
store. -/
theorem rew_hit (hne : access ≠ "e") (hr : hasChar access 'r' = true)
    {v : V} (hget : getC s0 key = .ok (s1, .val v)) :
    readExecuteWrite getC putC access key func s0 =
      ⟨s1, .ok (.val v), 0, 1, 0, true⟩ := by
  unfold readExecuteWrite
  rw [if_neg hne, hr]
  simp [hget, PVal.isNoCache]

/-- Reading policy, lookup miss, execution not permitted: the
cache-miss-not-permitted error. -/
theorem rew_r_miss_no_e (hne : access ≠ "e") (hr : hasChar access 'r' = true)
    (he : hasChar access 'e' = false)
    (hget : getC s0 key = .ok (s1, .noCache)) :
    readExecuteWrite getC putC access key func s0 =
      ⟨s1, .error .cacheMissNotPermitted, 0, 1, 0, false⟩ := by
  unfold readExecuteWrite
  rw [if_neg hne, hr]
  simp [hget, PVal.isNoCache, he]

/-- No reading and no execution permitted: the lookup is skipped, treated as
a miss, and the call fails. -/
theorem rew_no_r_no_e (hne : access ≠ "e") (hr : hasChar access 'r' = false)
    (he : hasChar access 'e' = false) :
    readExecuteWrite getC putC access key func s0 =
      ⟨s0, .error .cacheMissNotPermitted, 0, 0, 0, false⟩ := by
  unfold readExecuteWrite
  rw [if_neg hne, hr]
  simp [PVal.isNoCache, he]

/-- Reading policy, lookup miss, execution and writing permitted, and the
computation returns a real value: compute once, store once. -/
theorem rew_r_miss_e_w (hne : access ≠ "e") (hr : hasChar access 'r' = true)
    (he : hasChar access 'e' = true) (hw : hasChar access 'w' = true)
    {v : V} (hv : func () = .val v)
    (hget : getC s0 key = .ok (s1, .noCache)) :
    readExecuteWrite getC putC access key func s0 =
      ⟨putC s1 key (.val v), .ok (.val v), 1, 1, 1, false⟩ := by
  unfold readExecuteWrite
  rw [if_neg hne, hr]
  simp [hget, PVal.isNoCache, he, hw, hv]

/-- No reading, execution and writing permitted, computation returns a real
value: compute once, store once (the `'ew'` decorator path). -/
theorem rew_no_r_e_w (hne : access ≠ "e") (hr : hasChar access 'r' = false)
    (he : hasChar access 'e' = true) (hw : hasChar access 'w' = true)
    {v : V} (hv : func () = .val v) :
    readExecuteWrite getC putC access key func s0 =
      ⟨putC s0 key (.val v), .ok (.val v), 1, 0, 1, false⟩ := by
  unfold readExecuteWrite
  rw [if_neg hne, hr]
  simp [PVal.isNoCache, he, hw, hv]

end RewLemmas

theorem initializeCacheDict_none {K V : Type} (fs : FS K V) (p : String)
    (h : fsRead fs p = none) : initializeCacheDict fs p = .ok [] := by
  unfold initializeCacheDict initializeCache
  rw [h]

theorem initializeCacheDict_mdd {K V : Type} (fs : FS K V) (p : String)
    (d : List (K × PVal V)) (h : fsRead fs p = some (.mdd d)) :
    initializeCacheDict fs p = .ok d := by
  unfold initializeCacheDict initializeCache
  rw [h]

section CacheDictLemmas

variable {K V : Type} [DecidableEq K]

theorem cdGetC_of_ok (fs : FS K V) (p : String) (d0 : List (K × PVal V))
    (h : initializeCacheDict fs p = .ok d0) (d : List (K × PVal V)) (k : K) :
    cdGetC fs p d k = .ok (mddGetItem d k) := by
  unfold cdGetC
  rw [h]

theorem dictLookup_nil (k : K) : dictLookup ([] : List (K × PVal V)) k = none := rfl

theorem dictLookup_single_same (k : K) (v : PVal V) :
    dictLookup [(k, v)] k = some v := by
  simp [dictLookup]

theorem mddGetItem_of_none (d : List (K × PVal V)) (k : K)
    (h : dictLookup d k = none) :
    mddGetItem d k = (d ++ [(k, .noCache)], .noCache) := by
  unfold mddGetItem
  rw [h]

theorem mddGetItem_of_some (d : List (K × PVal V)) (k : K) (v : PVal V)
    (h : dictLookup d k = some v) : mddGetItem d k = (d, v) := by
  unfold mddGetItem
  rw [h]

theorem dictInsert_single_same (k : K) (x v : PVal V) :
    dictInsert [(k, x)] k v = [(k, v)] := by
  simp [dictInsert]

/-- A `CacheDict`-decorated call under policy `"r"` on a cold file: the
enter loads an empty mapping, the lookup misses, and since execution is not
permitted the call raises the cache-miss error; nothing is written. -/
theorem cacheDictDecoratedCall_r_cold (cacheDir cwd : String) (fs : FS K V)
    (filePath : FPath) (key : K) (func : Unit → PVal V)
    (hcold : fsRead fs (openTarget cwd (resolveFilepath cacheDir filePath)) = none) :
    cacheDictDecoratedCall cacheDir cwd fs filePath "r" key func =
      ⟨fs, .error .cacheMissNotPermitted, 0, 2, 0, 0⟩ := by
  have hinit := initializeCacheDict_none fs _ hcold
  have hget := cdGetC_of_ok fs _ _ hinit ([]) key
  rw [mddGetItem_of_none _ _ (dictLookup_nil key)] at hget
  unfold cacheDictDecoratedCall
  dsimp only
  rw [show resolveFilepath cacheDir (resolveFilepath cacheDir filePath) =
    resolveFilepath cacheDir filePath from resolveFilepath_idem cacheDir filePath]
  simp only [show hasChar "r" 'r' = true from rfl, if_true, hinit]
  rw [rew_r_miss_no_e _ cdPutC "r" key func ([]) _ (by decide) rfl rfl hget]
  rfl

/-- A `CacheDict`-decorated call under the default policy `"rew"` on a cold
file: the lookup misses (inserting the `NoCache` marker entry), the value is
computed once, stored over the marker, and the mapping is flushed. -/
theorem cacheDictDecoratedCall_rew_cold (cacheDir cwd : String) (fs : FS K V)
    (filePath : FPath) (key : K) (v : V) (func : Unit → PVal V)
    (hv : func () = .val v)
    (hcold : fsRead fs (openTarget cwd (resolveFilepath cacheDir filePath)) = none) :
    cacheDictDecoratedCall cacheDir cwd fs filePath "rew" key func =
      ⟨fsWrite fs (openTarget cwd (resolveFilepath cacheDir filePath))
        (.mdd [(key, .val v)]), .ok (.val v), 1, 2, 1, 1⟩ := by
  have hinit := initializeCacheDict_none fs _ hcold
  have hget := cdGetC_of_ok fs _ _ hinit ([]) key
  rw [mddGetItem_of_none _ _ (dictLookup_nil key)] at hget
  unfold cacheDictDecoratedCall
  dsimp only
  rw [show resolveFilepath cacheDir (resolveFilepath cacheDir filePath) =
    resolveFilepath cacheDir filePath from resolveFilepath_idem cacheDir filePath]
  simp only [show hasChar "rew" 'r' = true from rfl, if_true, hinit]
  rw [rew_r_miss_e_w _ cdPutC "rew" key func ([]) _ (by decide) rfl rfl rfl hv hget]
  simp only [show hasChar "rew" 'w' = true from rfl, if_true, List.nil_append]
  rw [show cdPutC ([(key, PVal.noCache)]) key (.val v) = [(key, .val v)] from
    dictInsert_single_same key _ _]

/-- A `CacheDict`-decorated call under `"rew"` on a file holding a mapping
in which the key hits: the stored value is returned, the callable is not
invoked, no store into the mapping happens, and the exit flushes the loaded
mapping back unchanged. -/
theorem cacheDictDecoratedCall_rew_hit (cacheDir cwd : String) (fs : FS K V)
    (filePath : FPath) (key : K) (v : V) (func : Unit → PVal V)
    (d : List (K × PVal V))
    (hfile : fsRead fs (openTarget cwd (resolveFilepath cacheDir filePath)) =
      some (.mdd d))
    (hhit : dictLookup d key = some (.val v)) :
    cacheDictDecoratedCall cacheDir cwd fs filePath "rew" key func =
      ⟨fsWrite fs (openTarget cwd (resolveFilepath cacheDir filePath)) (.mdd d),
        .ok (.val v), 0, 2, 1, 0⟩ := by
  have hinit := initializeCacheDict_mdd fs _ d hfile
  have hget := cdGetC_of_ok fs _ _ hinit d key
  rw [mddGetItem_of_some _ _ _ hhit] at hget
  unfold cacheDictDecoratedCall
  dsimp only
  rw [show resolveFilepath cacheDir (resolveFilepath cacheDir filePath) =
    resolveFilepath cacheDir filePath from resolveFilepath_idem cacheDir filePath]
  simp only [show hasChar "rew" 'r' = true from rfl, if_true, hinit]
  rw [rew_hit _ cdPutC "rew" key func d d (by decide) rfl hget]
  simp only [show hasChar "rew" 'w' = true from rfl, if_true]

/-- A `CacheDict`-decorated call under policy `"e"`: fast bypass — compute
once, read nothing, write nothing, leave the file system untouched. -/
theorem cacheDictDecoratedCall_e (cacheDir cwd : String) (fs : FS K V)
    (filePath : FPath) (key : K) (func : Unit → PVal V) :
    cacheDictDecoratedCall cacheDir cwd fs filePath "e" key func =
      ⟨fs, .ok (func ()), 1, 0, 0, 0⟩ := rfl

/-- A `CacheDict`-decorated call under policy `"ew"`: the file is not read,
the mapping starts empty, the value is computed and stored, and the exit
overwrites the file with the single-entry mapping. -/
theorem cacheDictDecoratedCall_ew (cacheDir cwd : String) (fs : FS K V)
    (filePath : FPath) (key : K) (v : V) (func : Unit → PVal V)
    (hv : func () = .val v) :
    cacheDictDecoratedCall cacheDir cwd fs filePath "ew" key func =
      ⟨fsWrite fs (openTarget cwd (resolveFilepath cacheDir filePath))
        (.mdd [(key, .val v)]), .ok (.val v), 1, 0, 1, 1⟩ := by
  unfold cacheDictDecoratedCall
  simp only [show hasChar "ew" 'r' = false from rfl, Bool.false_eq_true, if_false]
  rw [rew_no_r_e_w _ cdPutC "ew" key func ([]) (by decide) rfl rfl rfl hv]
  simp only [show hasChar "ew" 'w' = true from rfl, if_true]
  rfl

end CacheDictLemmas

/-! ### Claims -/

/-- C1: the spec says `SingleValueCache.decorate(f, p)` (default policy
`rew`) yields a wrapper with the read-execute-write behavior: on a cold
cache it invokes `f`, persists and returns the result, and a second call
returns the stored result without invoking `f`.  The code cannot do this:
`SingleValueCache` spells the base class's abstract methods without the
leading underscore, so four abstract methods stay unimplemented and every
call to the wrapper dies instantiating the class — `f` is never invoked and
nothing is ever persisted. -/
theorem C1_single_value_cache_wrapper_always_raises :
    svcRemainingAbstract =
      ["_get_cache_val", "_put_cache_val", "_key_func", "_get_default_file_path"] ∧
    ∀ (K V : Type) (cacheDir : String) (fs : FS K V) (filePath : FPath)
      (func : Unit → PVal V),
      svcDecoratedCall cacheDir fs filePath "rew" func =
        ⟨fs, .error .abstractClassError, 0, 0, 0, 0⟩ :=
  ⟨rfl, fun _ _ _ _ _ _ => rfl⟩

/-- C2: the spec says fingerprints respect canonicalized structure — set
element order is ignored but `fingerprint([\x7b1,2\x7d]) ≠
fingerprint([\x7b1,2,3\x7d])`.  In the code `_json_default` reduces any
object without a `__dict__` to just its class path, so *every* set
fingerprints to the same string: the two-element and the three-element set
collide.  (Mapping key order and instance attributes behave as specified,
shown by the last two conjuncts.) -/
theorem C2_get_hash_collapses_all_sets :
    getHash [.jset (jlist [.jint 1, .jint 2])] =
      getHash [.jset (jlist [.jint 2, .jint 1])] ∧
    getHash [.jset (jlist [.jint 1, .jint 2])] =
      getHash [.jset (jlist [.jint 1, .jint 2, .jint 3])] ∧
    getHash [.jobj (jfields [("a", .jint 1), ("b", .jint 2)])] =
      getHash [.jobj (jfields [("b", .jint 2), ("a", .jint 1)])] ∧
    getHash [.jobj (jfields [("a", .jint 1), ("b", .jint 2)])] ≠
      getHash [.jobj (jfields [("a", .jint 2), ("b", .jint 1)])] := by
  refine ⟨rfl, rfl, rfl, ?_⟩
  decide

/-- C4: when the access policy lacks `e` and the lookup misses (or lacks `r`
so no lookup is attempted), the orchestrator raises the
cache-miss-not-permitted error, invokes nothing and stores nothing; in
particular a `CacheDict`-decorated call under policy `r` on a cold cache
file fails with that error and leaves the file system unchanged. -/
theorem C4_miss_without_execute_raises :
    (∀ (σ K V : Type) (getC : σ → K → Except PyErr (σ × PVal V))
       (putC : σ → K → PVal V → σ) (access : String) (key : K)
       (func : Unit → PVal V) (s0 : σ),
       hasChar access 'e' = false →
       (hasChar access 'r' = true → ∃ s1, getC s0 key = .ok (s1, .noCache)) →
       (readExecuteWrite getC putC access key func s0).result =
           .error .cacheMissNotPermitted ∧
       (readExecuteWrite getC putC access key func s0).calls = 0 ∧
       (readExecuteWrite getC putC access key func s0).persists = 0) ∧
    (∀ (K V : Type) [DecidableEq K] (cacheDir cwd : String) (fs : FS K V)
       (filePath : FPath) (key : K) (func : Unit → PVal V),
       fsRead fs (openTarget cwd (resolveFilepath cacheDir filePath)) = none →
       cacheDictDecoratedCall cacheDir cwd fs filePath "r" key func =
         ⟨fs, .error .cacheMissNotPermitted, 0, 2, 0, 0⟩) := by
  constructor
  · intro σ K V getC putC access key func s0 he hmiss
    have hne : access ≠ "e" := by
      intro h
      subst h
      exact absurd he (by decide)
    by_cases hr : hasChar access 'r' = true
    · obtain ⟨s1, hget⟩ := hmiss hr
      rw [rew_r_miss_no_e getC putC access key func s0 s1 hne hr he hget]
      exact ⟨rfl, rfl, rfl⟩
    · have hr' : hasChar access 'r' = false := by
        cases h : hasChar access 'r'
        · rfl
        · exact absurd h hr
      rw [rew_no_r_no_e getC putC access key func s0 hne hr' he]
      exact ⟨rfl, rfl, rfl⟩
  · intro K V _ cacheDir cwd fs filePath key func hcold
    exact cacheDictDecoratedCall_r_cold cacheDir cwd fs filePath key func hcold

/-- Witness for C4 at concrete inputs. -/
theorem C4_miss_without_execute_raises_witness :
    ((readExecuteWrite (fun (s : Unit) (_ : String) => .ok (s, (.noCache : PVal Nat)))
        (fun s _ _ => s) "r" "k" (fun _ => .val 7) ()).result =
          .error .cacheMissNotPermitted ∧
     (readExecuteWrite (fun (s : Unit) (_ : String) => .ok (s, (.noCache : PVal Nat)))
        (fun s _ _ => s) "r" "k" (fun _ => .val 7) ()).calls = 0 ∧
     (readExecuteWrite (fun (s : Unit) (_ : String) => .ok (s, (.noCache : PVal Nat)))
        (fun s _ _ => s) "r" "k" (fun _ => .val 7) ()).persists = 0) ∧
    cacheDictDecoratedCall "/cache" "/cwd" (fsEmpty : FS String Nat)
        (.rel "d.pkl") "r" "k" (fun _ => .val 7) =
      ⟨fsEmpty, .error .cacheMissNotPermitted, 0, 2, 0, 0⟩ := by
  constructor
  · exact C4_miss_without_execute_raises.1 Unit String Nat _ _ "r" "k" _ ()
      rfl (fun _ => ⟨(), rfl⟩)
  · exact C4_miss_without_execute_raises.2 String Nat "/cache" "/cwd" fsEmpty
      (.rel "d.pkl") "k" (fun _ => .val 7) rfl

/-- C5: a scoped keyed-store session flushes the in-memory mapping to the
session's file on exit whenever the policy contains `w` — whether or not the
body raised (the flushed mapping and the propagated flag are exactly the
body's) — and the mapping the caller still references is cleared on exit
under every policy and every outcome. -/
theorem C5_session_exit_flushes_and_clears :
    (∀ (K V : Type) [DecidableEq K] (cacheDir cwd : String) (fs : FS K V)
       (p : FPath) (access : String)
       (body : List (K × PVal V) → List (K × PVal V) × Bool)
       (sp : FPath) (d0 : List (K × PVal V)),
       hasChar access 'w' = true →
       sessionLoad cacheDir cwd fs p access = .ok (sp, d0) →
       cacheDictSession cacheDir cwd fs p access body =
         .ok ⟨fsWrite fs (openTarget cwd sp) (.mdd (body d0).1), (body d0).2, []⟩) ∧
    (∀ (K V : Type) [DecidableEq K] (cacheDir cwd : String) (fs : FS K V)
       (p : FPath) (access : String)
       (body : List (K × PVal V) → List (K × PVal V) × Bool)
       (out : SessionOut K V),
       cacheDictSession cacheDir cwd fs p access body = .ok out →
       out.holderDict = []) := by
  constructor
  · intro K V _ cacheDir cwd fs p access body sp d0 hw hload
    unfold cacheDictSession
    rw [hload]
    dsimp only
    rw [hw]
    simp
  · intro K V _ cacheDir cwd fs p access body out h
    unfold cacheDictSession at h
    cases hload : sessionLoad cacheDir cwd fs p access with
    | error e =>
        rw [hload] at h
        exact Except.noConfusion h
    | ok pr =>
        obtain ⟨ip, d0⟩ := pr
        rw [hload] at h
        dsimp only at h
        rw [Except.ok.injEq] at h
        rw [← h]

/-- Witness for C5 at concrete inputs (the body raises, the flush still
happens, the mapping is cleared). -/
theorem C5_session_exit_flushes_and_clears_witness :
    cacheDictSession "/c" "/w" (fsEmpty : FS String Nat) (.rel "x.pkl") "rew"
        (fun d => (d, true)) =
      .ok ⟨fsWrite fsEmpty (openTarget "/w" (.abs "/c/x.pkl")) (.mdd []), true, []⟩ ∧
    ∀ out : SessionOut String Nat,
      cacheDictSession "/c" "/w" (fsEmpty : FS String Nat) (.rel "x.pkl") "rew"
          (fun d => (d, true)) = .ok out →
      out.holderDict = [] := by
  constructor
  · exact C5_session_exit_flushes_and_clears.1 String Nat "/c" "/w" fsEmpty
      (.rel "x.pkl") "rew" (fun d => (d, true)) (.abs "/c/x.pkl") [] rfl rfl
  · intro out h
    exact C5_session_exit_flushes_and_clears.2 String Nat "/c" "/w" fsEmpty
      (.rel "x.pkl") "rew" (fun d => (d, true)) out h

/-- C6: under the policy that is exactly `e` the orchestrator computes the
wrapped callable fresh and never touches storage — no lookup, no store, and
for a `CacheDict`-decorated call no file read, no file write and a file
system identical to the one before the call. -/
theorem C6_execute_only_never_touches_storage :
    (∀ (σ K V : Type) (getC : σ → K → Except PyErr (σ × PVal V))
       (putC : σ → K → PVal V → σ) (key : K) (func : Unit → PVal V) (s0 : σ),
       readExecuteWrite getC putC "e" key func s0 =
         ⟨s0, .ok (func ()), 1, 0, 0, false⟩) ∧
    (∀ (K V : Type) [DecidableEq K] (cacheDir cwd : String) (fs : FS K V)
       (filePath : FPath) (key : K) (func : Unit → PVal V),
       cacheDictDecoratedCall cacheDir cwd fs filePath "e" key func =
         ⟨fs, .ok (func ()), 1, 0, 0, 0⟩) := by
  constructor
  · intro σ K V getC putC key func s0
    exact rew_fast_path getC putC key func s0
  · intro K V _ cacheDir cwd fs filePath key func
    exact cacheDictDecoratedCall_e cacheDir cwd fs filePath key func

/-- C7: the spec says the lifecycle-free snapshot read returns normally in
all cases — whole mapping for `key=None`, entry-or-Absent for `key=K` —
including on a missing cache file.  On a missing file with a key the code
instead subscripts the `NoCache()` sentinel `_initialize_cache` returned,
which raises a `TypeError`.  The other cases behave as specified. -/
theorem C7_snapshot_get_with_key_on_missing_file_raises :
    cacheDictGet "/cache" "/cwd" (fsEmpty : FS String Nat) (.rel "d.pkl")
        (some "k") = .error .notSubscriptable ∧
    cacheDictGet "/cache" "/cwd" (fsEmpty : FS String Nat) (.rel "d.pkl")
        none = .ok .wholeMissing ∧
    cacheDictGet "/cache" "/cwd"
        (fsSingle "/cache/d.pkl" (.mdd [("a", .val 5)]) : FS String Nat)
        (.rel "d.pkl") (some "a") = .ok (.entry (.val 5)) ∧
    cacheDictGet "/cache" "/cwd"
        (fsSingle "/cache/d.pkl" (.mdd [("a", .val 5)]) : FS String Nat)
        (.rel "d.pkl") (some "k") = .ok (.entry .noCache) ∧
    cacheDictGet "/cache" "/cwd"
        (fsSingle "/cache/d.pkl" (.mdd [("a", .val 5)]) : FS String Nat)
        (.rel "d.pkl") none = .ok (.wholeDict [("a", .val 5)]) :=
  ⟨rfl, rfl, rfl, rfl, rfl⟩

/-- C8: the spec says every cache operation resolves a relative path against
the configured cache directory before any I/O, including a scoped session's
flush under any write-permitting policy.  `CacheDict.__enter__` resolves
only when `r` is in the policy, so an `ew` session flushes to the *raw*
relative path (resolved against the working directory), not to the cache
directory.  A `rew` session and a decorated `ew` call do flush to the
resolved path. -/
theorem C8_ew_session_flushes_to_unresolved_path :
    (cacheDictSession "/cache" "/cwd" (fsEmpty : FS String Nat) (.rel "x.pkl")
          "ew" (fun d => (dictInsert d "k" (.val 5), false))).map
        (fun out => (fsRead out.fs "/cache/x.pkl", fsRead out.fs "/cwd/x.pkl"))
      = .ok (none, some (.mdd [("k", .val 5)])) ∧
    (cacheDictSession "/cache" "/cwd" (fsEmpty : FS String Nat) (.rel "x.pkl")
          "rew" (fun d => (dictInsert d "k" (.val 5), false))).map
        (fun out => (fsRead out.fs "/cache/x.pkl", fsRead out.fs "/cwd/x.pkl"))
      = .ok (some (.mdd [("k", .val 5)]), none) ∧
    fsRead (cacheDictDecoratedCall "/cache" "/cwd" (fsEmpty : FS String Nat)
        (.rel "x.pkl") "ew" "k" (fun _ => .val 5)).fs "/cache/x.pkl"
      = some (.mdd [("k", .val 5)]) ∧
    fsRead (cacheDictDecoratedCall "/cache" "/cwd" (fsEmpty : FS String Nat)
        (.rel "x.pkl") "ew" "k" (fun _ => .val 5)).fs "/cwd/x.pkl" = none :=
  ⟨rfl, rfl, rfl, rfl⟩

/-- C3: per orchestrator call the wrapped callable is invoked at most once —
exactly once when the call returns normally without a hit — at most one
store happens, and only on a miss followed by a compute; a hit is never
recomputed and never stored again.  Under `rew`, a second identical
`CacheDict`-decorated call hits: it returns the first call's result, does
not invoke the callable, performs no store, and leaves the file system
exactly as the first call left it. -/
theorem C3_at_most_one_invocation_and_persist :
    (∀ (σ K V : Type) (getC : σ → K → Except PyErr (σ × PVal V))
       (putC : σ → K → PVal V → σ) (access : String) (key : K)
       (func : Unit → PVal V) (s0 : σ) (out : RewOut σ V),
       readExecuteWrite getC putC access key func s0 = out →
       out.calls ≤ 1 ∧ out.persists ≤ 1 ∧
       (out.hit = true → out.calls = 0 ∧ out.persists = 0) ∧
       (∀ v, out.result = .ok v → out.hit = false → out.calls = 1) ∧
       (out.persists = 1 → out.hit = false ∧ out.calls = 1)) ∧
    (∀ (K V : Type) [DecidableEq K] (cacheDir cwd : String) (fs : FS K V)
       (filePath : FPath) (key : K) (v : V) (func : Unit → PVal V),
       func () = .val v →
       fsRead fs (openTarget cwd (resolveFilepath cacheDir filePath)) = none →
       (cacheDictDecoratedCall cacheDir cwd fs filePath "rew" key func).result
           = .ok (.val v) ∧
       (cacheDictDecoratedCall cacheDir cwd fs filePath "rew" key func).calls = 1 ∧
       (cacheDictDecoratedCall cacheDir cwd
           (cacheDictDecoratedCall cacheDir cwd fs filePath "rew" key func).fs
           filePath "rew" key func).result = .ok (.val v) ∧
       (cacheDictDecoratedCall cacheDir cwd
           (cacheDictDecoratedCall cacheDir cwd fs filePath "rew" key func).fs
           filePath "rew" key func).calls = 0 ∧
       (cacheDictDecoratedCall cacheDir cwd
           (cacheDictDecoratedCall cacheDir cwd fs filePath "rew" key func).fs
           filePath "rew" key func).dictPuts = 0 ∧
       (cacheDictDecoratedCall cacheDir cwd
           (cacheDictDecoratedCall cacheDir cwd fs filePath "rew" key func).fs
           filePath "rew" key func).fs =
         (cacheDictDecoratedCall cacheDir cwd fs filePath "rew" key func).fs) := by
  constructor
  · intro σ K V getC putC access key func s0 out hout
    by_cases hne : access = "e"
    · subst hne
      rw [rew_fast_path] at hout
      subst hout
      simp
    · unfold readExecuteWrite at hout
      rw [if_neg hne] at hout
      cases hE : (if hasChar access 'r' = true then getC s0 key
          else .ok (s0, (.noCache : PVal V))) with
      | error e =>
          rw [hE] at hout
          dsimp only at hout
          subst hout
          simp
      | ok pr =>
          obtain ⟨s1, val⟩ := pr
          rw [hE] at hout
          cases val with
          | val v =>
              simp [PVal.isNoCache] at hout
              subst hout
              simp
          | noCache =>
              by_cases he : hasChar access 'e' = true
              · rcases hfv : func () with v | _
                · by_cases hw : hasChar access 'w' = true
                  · simp [PVal.isNoCache, he, hfv, hw] at hout
                    subst hout
                    simp
                  · have hw' : hasChar access 'w' = false := by
                      cases h : hasChar access 'w'
                      · rfl
                      · exact absurd h hw
                    simp [PVal.isNoCache, he, hfv, hw'] at hout
                    subst hout
                    simp
                · simp [PVal.isNoCache, he, hfv] at hout
                  subst hout
                  simp
              · have he' : hasChar access 'e' = false := by
                  cases h : hasChar access 'e'
                  · rfl
                  · exact absurd h he
                simp [PVal.isNoCache, he'] at hout
                subst hout
                simp
  · intro K V _ cacheDir cwd fs filePath key v func hv hcold
    have h1 := cacheDictDecoratedCall_rew_cold cacheDir cwd fs filePath key v
      func hv hcold
    have hfile : fsRead
        (cacheDictDecoratedCall cacheDir cwd fs filePath "rew" key func).fs
        (openTarget cwd (resolveFilepath cacheDir filePath)) =
        some (.mdd [(key, .val v)]) := by
      rw [h1]
      exact fsRead_fsWrite_self fs _ _
    have h2 := cacheDictDecoratedCall_rew_hit cacheDir cwd
      (cacheDictDecoratedCall cacheDir cwd fs filePath "rew" key func).fs
      filePath key v func [(key, .val v)] hfile
      (dictLookup_single_same key (.val v))
    refine ⟨?_, ?_, ?_, ?_, ?_, ?_⟩
    · rw [h1]
    · rw [h1]
    · rw [h2]
    · rw [h2]
    · rw [h2]
    · rw [h2, h1]
      exact fsWrite_fsWrite_self fs _ _

/-- Witness for C3 at concrete inputs: a hit computes nothing and stores
nothing; a cold `rew` call computes once and the repeat call none. -/
theorem C3_at_most_one_invocation_and_persist_witness :
    ((readExecuteWrite (fun (s : Unit) (_ : String) => .ok (s, PVal.val (7 : Nat)))
        (fun s _ _ => s) "r" "k" (fun _ => .val 0) ()).calls = 0 ∧
     (readExecuteWrite (fun (s : Unit) (_ : String) => .ok (s, PVal.val (7 : Nat)))
        (fun s _ _ => s) "r" "k" (fun _ => .val 0) ()).persists = 0) ∧
    ((cacheDictDecoratedCall "/c" "/w" (fsEmpty : FS String Nat) (.rel "f.pkl")
        "rew" "k" (fun _ => .val 7)).calls = 1 ∧
     (cacheDictDecoratedCall "/c" "/w"
        (cacheDictDecoratedCall "/c" "/w" (fsEmpty : FS String Nat) (.rel "f.pkl")
          "rew" "k" (fun _ => .val 7)).fs (.rel "f.pkl") "rew" "k"
        (fun _ => .val 7)).calls = 0) := by
  constructor
  · exact (C3_at_most_one_invocation_and_persist.1 Unit String Nat _ _ "r" "k"
      (fun _ => .val 0) () _ rfl).2.2.1 rfl
  · have h := C3_at_most_one_invocation_and_persist.2 String Nat "/c" "/w"
      fsEmpty (.rel "f.pkl") "k" 7 (fun _ => .val 7) rfl rfl
    exact ⟨h.2.1, h.2.2.2.1⟩

/-- C9: in session mode a lookup of a fingerprint that is not in the mapping
is not side-effect-free — `MyDefaultDict` routes `get`/indexing through the
defaultdict machinery, which inserts a fresh `NoCache` marker entry — and a
write-permitted flush persists those marker entries to the cache file. -/
theorem C9_missing_key_lookup_grows_mapping :
    (∀ (K V : Type) [DecidableEq K] (d : List (K × PVal V)) (k : K),
       dictLookup d k = none →
       mddGetItem d k = (d ++ [(k, .noCache)], .noCache)) ∧
    (∀ (K V : Type) [DecidableEq K] (cacheDir cwd : String) (fs : FS K V)
       (p : FPath) (k : K),
       fsRead fs (openTarget cwd (resolveFilepath cacheDir p)) = none →
       (cacheDictSession cacheDir cwd fs p "rew"
           (fun d => ((mddGetItem d k).1, false))).map
         (fun out => fsRead out.fs (openTarget cwd (resolveFilepath cacheDir p)))
         = .ok (some (.mdd [(k, .noCache)]))) := by
  constructor
  · intro K V _ d k h
    exact mddGetItem_of_none d k h
  · intro K V _ cacheDir cwd fs p k hcold
    have hload : sessionLoad cacheDir cwd fs p "rew" =
        .ok (resolveFilepath cacheDir p, []) := by
      unfold sessionLoad
      rw [if_pos (show hasChar "rew" 'r' = true from rfl)]
      dsimp only
      rw [initializeCacheDict_none fs _ hcold]
    unfold cacheDictSession
    rw [hload]
    dsimp only
    rw [if_pos (show hasChar "rew" 'w' = true from rfl)]
    dsimp only [Except.map]
    rw [fsRead_fsWrite_self]
    rfl

/-- Witness for C9 at concrete inputs. -/
theorem C9_missing_key_lookup_grows_mapping_witness :
    mddGetItem ([] : List (String × PVal Nat)) "k" =
      ([("k", .noCache)], .noCache) ∧
    (cacheDictSession "/c" "/w" (fsEmpty : FS String Nat) (.rel "d.pkl") "rew"
        (fun d => ((mddGetItem d "k").1, false))).map
      (fun out => fsRead out.fs (openTarget "/w" (resolveFilepath "/c" (.rel "d.pkl"))))
      = .ok (some (.mdd [("k", .noCache)])) := by
  constructor
  · exact C9_missing_key_lookup_grows_mapping.1 String Nat [] "k" rfl
  · exact C9_missing_key_lookup_grows_mapping.2 String Nat "/c" "/w" fsEmpty
      (.rel "d.pkl") "k" rfl

/-- C10: with `w` but not `r` in the policy, a session starts from an empty
in-memory mapping without reading the existing file, and the exit flush
overwrites the entire file with that mapping, losing every previously stored
entry; likewise a decorated `ew` call replaces the file with the mapping
holding just the freshly computed entry. -/
theorem C10_write_without_read_overwrites_whole_file :
    (∀ (K V : Type) [DecidableEq K] (cacheDir cwd : String) (fs : FS K V)
       (p : FPath) (access : String)
       (body : List (K × PVal V) → List (K × PVal V) × Bool),
       hasChar access 'r' = false → hasChar access 'w' = true →
       cacheDictSession cacheDir cwd fs p access body =
         .ok ⟨fsWrite fs (openTarget cwd p) (.mdd (body []).1), (body []).2, []⟩) ∧
    (∀ (K V : Type) [DecidableEq K] (cacheDir cwd : String) (fs : FS K V)
       (filePath : FPath) (key : K) (v : V) (func : Unit → PVal V),
       func () = .val v →
       cacheDictDecoratedCall cacheDir cwd fs filePath "ew" key func =
         ⟨fsWrite fs (openTarget cwd (resolveFilepath cacheDir filePath))
           (.mdd [(key, .val v)]), .ok (.val v), 1, 0, 1, 1⟩) := by
  constructor
  · intro K V _ cacheDir cwd fs p access body hr hw
    have hload : sessionLoad cacheDir cwd fs p access = .ok (p, []) := by
      unfold sessionLoad
      rw [hr]
      simp
    unfold cacheDictSession
    rw [hload]
    dsimp only
    rw [if_pos (show hasChar access 'w' = true from hw)]
  · intro K V _ cacheDir cwd fs filePath key v func hv
    exact cacheDictDecoratedCall_ew cacheDir cwd fs filePath key v func hv

/-- Witness for C10 at concrete inputs: a pre-existing entry under another
fingerprint is gone after the `ew` flush. -/
theorem C10_write_without_read_overwrites_whole_file_witness :
    cacheDictSession "/c" "/w"
        (fsSingle "/w/x.pkl" (.mdd [("old", .val 1)]) : FS String Nat)
        (.rel "x.pkl") "ew" (fun d => (dictInsert d "k" (.val 5), false)) =
      .ok ⟨fsWrite (fsSingle "/w/x.pkl" (.mdd [("old", .val 1)]))
             (openTarget "/w" (.rel "x.pkl")) (.mdd [("k", .val 5)]), false, []⟩ ∧
    cacheDictDecoratedCall "/c" "/w" (fsEmpty : FS String Nat) (.rel "y.pkl")
        "ew" "k" (fun _ => .val (5 : Nat)) =
      ⟨fsWrite fsEmpty (openTarget "/w" (resolveFilepath "/c" (.rel "y.pkl")))
         (.mdd [("k", .val 5)]), .ok (.val 5), 1, 0, 1, 1⟩ := by
  constructor
  · exact C10_write_without_read_overwrites_whole_file.1 String Nat "/c" "/w"
      (fsSingle "/w/x.pkl" (.mdd [("old", .val 1)])) (.rel "x.pkl") "ew"
      (fun d => (dictInsert d "k" (.val 5), false)) rfl rfl
  · exact C10_write_without_read_overwrites_whole_file.2 String Nat "/c" "/w"
      fsEmpty (.rel "y.pkl") "k" 5 (fun _ => .val 5) rfl

end Pecapiku
